import Mathlib

/-!
Verification of `src/Rates_update.py` (kaiko_indices_coverage_multi).

The Python script is a linear batch transform over an in-memory list of
index records: it reads prior factsheet links from an existing CSV,
overrides the static catalogue's factsheet values, merges location-suffixed
ticker variants into single rows, sorts by ticker, and writes a full and a
filtered CSV.  The definitions below are a shallow embedding of that
script: Python strings become `String`, tuples become the `Record`
structure (fields in tuple-index order), dicts become ordered association
lists, loops become folds, and the CSV files are modelled by the lists of
rows they contain (the `csv` module round-trips fields verbatim).
-/

set_option maxRecDepth 8000

namespace RatesUpdate

/-- An index record: the 8-tuple of
`(Brand, Benchmark Family, Name, Ticker, Disseminations, Launch Date,
Inception Date, Factsheet)` used throughout `Rates_update.py`.
Field order follows the tuple indices of the source. -/
structure Record where
  brand : String
  family : String
  name : String
  ticker : String
  disseminations : String
  launchDate : String
  inceptionDate : String
  factsheet : String
deriving DecidableEq, Repr

/-- Python `s.endswith(suffix)`. -/
def pyEndsWith (s suffix : String) : Bool :=
  decide (suffix.data <:+ s.data)

/-- Python `s[:-n]` for `n ≥ 1` (drop the last `n` characters). -/
def pyDropRight (s : String) (n : Nat) : String :=
  ⟨s.data.take (s.data.length - n)⟩

/-- Python `str.strip()` whitespace test: CPython strips exactly the
characters for which `str.isspace()` holds, i.e. the code points
09–0D, 1C–1F, 20, 85, A0, 1680, 2000–200A, 2028, 2029, 202F, 205F
and 3000. -/
def isPySpace (c : Char) : Bool :=
  decide ((0x09 ≤ c.toNat ∧ c.toNat ≤ 0x0d) ∨
    (0x1c ≤ c.toNat ∧ c.toNat ≤ 0x1f) ∨
    c.toNat = 0x20 ∨ c.toNat = 0x85 ∨ c.toNat = 0xa0 ∨ c.toNat = 0x1680 ∨
    (0x2000 ≤ c.toNat ∧ c.toNat ≤ 0x200a) ∨
    c.toNat = 0x2028 ∨ c.toNat = 0x2029 ∨ c.toNat = 0x202f ∨
    c.toNat = 0x205f ∨ c.toNat = 0x3000)

/-- Python `s.strip()`: drop leading and trailing whitespace. -/
def pyStrip (s : String) : String :=
  ⟨((s.data.dropWhile isPySpace).reverse.dropWhile isPySpace).reverse⟩

/-- Python `', '.join(xs)`. -/
def pyJoin (sep : String) : List String → String
  | [] => ""
  | [x] => x
  | x :: xs => x ++ sep ++ pyJoin sep xs

/-- The location suffixes `['NYC', 'LDN', 'SGP']`, in source order. -/
def locSuffixes : List String := ["NYC", "LDN", "SGP"]

/-- `get_base_ticker` (`Rates_update.py:63`): strip the first matching
location suffix (checked in the order NYC, LDN, SGP), else return the
ticker unchanged.  The Python `for`/`return` loop is the first match of
`find?` over the suffix list. -/
def get_base_ticker (ticker : String) : String :=
  match locSuffixes.find? (fun suffix => pyEndsWith ticker suffix) with
  | some suffix => pyDropRight ticker suffix.length
  | none => ticker

/-- `get_location_from_ticker` (`Rates_update.py:71`): the first matching
location suffix, or `none`. -/
def get_location_from_ticker (ticker : String) : Option String :=
  locSuffixes.find? (fun suffix => pyEndsWith ticker suffix)

/-- The malformed double-anchor pattern `'<a href="<a href="'` repaired by
`get_existing_fact_sheets`. -/
def doubleHref : String := "<a href=\"<a href=\""

/-- The single opening tag `'<a href="'` that replaces the pattern. -/
def singleHref : String := "<a href=\""

/-- Left-to-right, non-overlapping replacement of `doubleHref` by
`singleHref` on character lists, as Python's `str.replace` performs it.
The `fuel` argument (initially the list length) only makes the recursion
structural: every step consumes at least one character. -/
def collapseAux : Nat → List Char → List Char
  | 0, l => l
  | _ + 1, [] => []
  | fuel + 1, c :: rest =>
    if decide (doubleHref.data <+: c :: rest) then
      singleHref.data ++ collapseAux fuel (rest.drop (doubleHref.data.length - 1))
    else
      c :: collapseAux fuel rest

/-- The reader's double-anchor repair (`Rates_update.py:55`):
`if '<a href="<a href="' in value: value.replace('<a href="<a href="', '<a href="')`. -/
def fixDoubleHref (value : String) : String :=
  if doubleHref.data <:+: value.data then ⟨collapseAux value.data.length value.data⟩
  else value

/-- Python `dict` assignment `m[k] = v` on an ordered association list:
update in place if the key is present, else append. -/
def insertAssoc (m : List (String × String)) (k v : String) : List (String × String) :=
  match m with
  | [] => [(k, v)]
  | (k', v') :: rest =>
    if k' = k then (k, v) :: rest else (k', v') :: insertAssoc rest k v

/-- Python `m[k]` / `k in m` on an ordered association list. -/
def lookupFacts (m : List (String × String)) (k : String) : Option String :=
  (m.find? (fun p => decide (p.1 = k))).map (fun p => p.2)

/-- One iteration of the row loop of `get_existing_fact_sheets`
(`Rates_update.py:43`–58): strip the factsheet value, drop a single
trailing comma, skip the row if the result is empty, repair the double
anchor pattern, and record the value under the row's ticker. -/
def readStep (fact_sheets : List (String × String)) (row : Record) : List (String × String) :=
  let value := pyStrip row.factsheet
  let value := if pyEndsWith value "," then pyDropRight value 1 else value
  if value = "" then fact_sheets
  else insertAssoc fact_sheets row.ticker (fixDoubleHref value)

/-- `get_existing_fact_sheets` (`Rates_update.py:31`): fold the row loop
over the rows of the prior CSV (modelled as the list of its records). -/
def get_existing_fact_sheets (rows : List Record) : List (String × String) :=
  rows.foldl readStep []

def factsheet_blue_chip : String :=
  "<a href=\"https://marketing.kaiko.com/hubfs/Factsheets%20and%20Methodologies/New%20Benchmark%20Factsheets/Kaiko%20Benchmarks%20-%20Blue-Chip%20family%20factsheet.pdf\" target=\"_blank\">View Factsheet</a>"

def factsheet_sector_thematic : String :=
  "<a href=\"https://marketing.kaiko.com/hubfs/Factsheets%20and%20Methodologies/New%20Benchmark%20Factsheets/Kaiko%20Benchmarks%20-%20Sector%20&%20Thematic%20family%20factsheet.pdf\" target=\"_blank\">View Factsheet</a>"

def factsheet_market : String :=
  "<a href=\"https://marketing.kaiko.com/hubfs/Factsheets%20and%20Methodologies/New%20Benchmark%20Factsheets/Kaiko%20Benchmarks%20-%20Market%20family%20factsheet.pdf\" target=\"_blank\">View Factsheet</a>"

/-- `get_fixed_entries` (`Rates_update.py:78`): the static catalogue. -/
def get_fixed_entries : List Record := [
    ⟨"Kaiko", "Blue-Chip", "Kaiko Eagle Index", "EGLX", "NYC Fixing", "February 11, 2025", "February 11, 2025", factsheet_blue_chip⟩,
    ⟨"Kaiko", "Blue-Chip", "Kaiko Eagle Index", "EGLXRT", "Real-time (5 sec)", "February 11, 2025", "February 11, 2025", factsheet_blue_chip⟩,
    ⟨"Kaiko", "Blue-Chip", "Kaiko 5 Index", "KT5", "Real-time (5 sec)", "October 17, 2023", "March 19, 2018", factsheet_blue_chip⟩,
    ⟨"Kaiko", "Blue-Chip", "Kaiko 5 Index NYC", "KT5NYC", "NYC Fixing", "October 17, 2023", "March 19, 2018", factsheet_blue_chip⟩,
    ⟨"Kaiko", "Blue-Chip", "Kaiko 5 Index LDN", "KT5LDN", "LDN Fixing", "October 17, 2023", "March 19, 2018", factsheet_blue_chip⟩,
    ⟨"Kaiko", "Blue-Chip", "Kaiko 5 Index SGP", "KT5SGP", "SGP Fixing", "October 17, 2023", "March 19, 2018", factsheet_blue_chip⟩,
    ⟨"Kaiko", "Blue-Chip", "Kaiko 10 Index", "KT10", "Real-time (5 sec)", "October 17, 2023", "March 18, 2019", factsheet_blue_chip⟩,
    ⟨"Kaiko", "Blue-Chip", "Kaiko 10 Index NYC", "KT10NYC", "NYC Fixing", "October 17, 2023", "March 18, 2019", factsheet_blue_chip⟩,
    ⟨"Kaiko", "Blue-Chip", "Kaiko 10 Index LDN", "KT10LDN", "LDN Fixing", "October 17, 2023", "March 18, 2019", factsheet_blue_chip⟩,
    ⟨"Kaiko", "Blue-Chip", "Kaiko 10 Index SGP", "KT10SGP", "SGP Fixing", "October 17, 2023", "March 18, 2019", factsheet_blue_chip⟩,
    ⟨"Kaiko", "Blue-Chip", "Kaiko 15 Index", "KT15", "Real-time (5 sec)", "October 17, 2023", "December 23, 2019", factsheet_blue_chip⟩,
    ⟨"Kaiko", "Blue-Chip", "Kaiko 15 Index NYC", "KT15NYC", "NYC Fixing", "October 17, 2023", "December 23, 2019", factsheet_blue_chip⟩,
    ⟨"Kaiko", "Blue-Chip", "Kaiko 15 Index LDN", "KT15LDN", "LDN Fixing", "October 17, 2023", "December 23, 2019", factsheet_blue_chip⟩,
    ⟨"Kaiko", "Blue-Chip", "Kaiko 15 Index SGP", "KT15SGP", "SGP Fixing", "October 17, 2023", "December 23, 2019", factsheet_blue_chip⟩,
    ⟨"Kaiko", "Blue-Chip", "Vinter 21Shares Crypto Basket Equal Weight Index ", "HODLV", "LDN Fixing", "September 29, 2021", "January 01, 2021", "<a href=\"https://marketing.kaiko.com/hubfs/Factsheets%20and%20Methodologies/multi-asset_hodlv_end=2025-03-12&start=2020-12-31.pdf\" target=\"_blank\">View Factsheet</a>"⟩,
    ⟨"Kaiko", "Blue-Chip", "Vinter 21Shares Crypto Basket 10 Index", "HODLX", "LDN Fixing", "September 29, 2021", "January 01, 2021", "<a target=\"_blank\">Coming Soon</a>"⟩,
    ⟨"Kaiko", "Blue-Chip", "Vinter Valour Digital Asset Basket 10 Index", "VDAB10", "LDN Fixing", "July 21, 2022", "January 01, 2021", "<a href=\"https://marketing.kaiko.com/hubfs/Factsheets%20and%20Methodologies/VDAB10%20-%20Fact%20Sheet%20-%20multi-asset_vdab10_end=2025-03-12&start=2020-12-31.pdf\" target=\"_blank\">View Factsheet</a>"⟩,
    ⟨"Kaiko", "Blue-Chip", "Vinter Pando Crypto Basket 6 Index ", "PANDO6", "17:00 CET Fixing", "July 21, 2022", "January 01, 2021", "<a href=\"https://marketing.kaiko.com/hubfs/Factsheets%20and%20Methodologies/PANDO6%20-%20Fact%20Sheet%20-%20multi-asset_pando6_end=2025-03-12&start=2020-12-31.pdf\" target=\"_blank\">View Factsheet</a>"⟩,
    ⟨"Kaiko", "Blue-Chip", "Virtune Vinter Crypto Top 10 Index", "VVT10", "17:00 CET Fixing", "March 31, 2023", "January 01, 2021", "<a href=\"https://marketing.kaiko.com/hubfs/Factsheets%20and%20Methodologies/VVT10%20-%20Fact%20Sheet%20-%20multi-asset_vvt10_end=2025-03-12&start=2020-12-31.pdf\" target=\"_blank\">View Factsheet</a>"⟩,
    ⟨"Kaiko", "Sector & Thematic", "Kaiko Tokenization Index", "KSTKNZ", "Real-time (5 sec)", "January 23, 2025", "January 3, 2022", factsheet_sector_thematic⟩,
    ⟨"Kaiko", "Sector & Thematic", "Kaiko Tokenization Index NYC", "KSTKNZNYC", "NYC Fixing", "January 23, 2025", "January 3, 2022", factsheet_sector_thematic⟩,
    ⟨"Kaiko", "Sector & Thematic", "Kaiko Tokenization Index LDN", "KSTKNZLDN", "LDN Fixing", "January 23, 2025", "January 3, 2022", factsheet_sector_thematic⟩,
    ⟨"Kaiko", "Sector & Thematic", "Kaiko Tokenization Index SGP", "KSTKNZSGP", "SGP Fixing", "January 23, 2025", "January 3, 2022", factsheet_sector_thematic⟩,
    ⟨"Kaiko", "Sector & Thematic", "Kaiko AI Index", "KSAI", "Real-time (5 sec)", "January 23, 2025", "October 3, 2022", factsheet_sector_thematic⟩,
    ⟨"Kaiko", "Sector & Thematic", "Kaiko AI Index NYC", "KSAINYC", "NYC Fixing", "January 23, 2025", "October 3, 2022", factsheet_sector_thematic⟩,
    ⟨"Kaiko", "Sector & Thematic", "Kaiko AI Index LDN", "KSAILDN", "LDN Fixing", "January 23, 2025", "October 3, 2022", factsheet_sector_thematic⟩,
    ⟨"Kaiko", "Sector & Thematic", "Kaiko AI Index SGP", "KSAISGP", "SGP Fixing", "January 23, 2025", "October 3, 2022", factsheet_sector_thematic⟩,
    ⟨"Kaiko", "Sector & Thematic", "Kaiko Meme Index", "KSMEME", "Real-time (5 sec)", "January 22, 2025", "April 3, 2023", factsheet_sector_thematic⟩,
    ⟨"Kaiko", "Sector & Thematic", "Kaiko Meme Index NYC", "KSMEMENYC", "NYC Fixing", "January 22, 2025", "April 3, 2023", factsheet_sector_thematic⟩,
    ⟨"Kaiko", "Sector & Thematic", "Kaiko Meme Index LDN", "KSMEMELDN", "LDN Fixing", "January 22, 2025", "April 3, 2023", factsheet_sector_thematic⟩,
    ⟨"Kaiko", "Sector & Thematic", "Kaiko Meme Index SGP", "KSMEMESGP", "SGP Fixing", "January 22, 2025", "April 3, 2023", factsheet_sector_thematic⟩,
    ⟨"Kaiko", "Sector & Thematic", "Kaiko DeFi Index", "KSDEFI", "Real-time (5 sec)", "January 17, 2025", "April 3, 2023", factsheet_sector_thematic⟩,
    ⟨"Kaiko", "Sector & Thematic", "Kaiko DeFi Index NYC", "KSDEFINYC", "NYC Fixing", "January 17, 2025", "April 3, 2023", factsheet_sector_thematic⟩,
    ⟨"Kaiko", "Sector & Thematic", "Kaiko DeFi Index LDN", "KSDEFILDN", "LDN Fixing", "January 17, 2025", "April 3, 2023", factsheet_sector_thematic⟩,
    ⟨"Kaiko", "Sector & Thematic", "Kaiko DeFi Index SGP", "KSDEFISGP", "SGP Fixing", "January 17, 2025", "April 3, 2023", factsheet_sector_thematic⟩,
    ⟨"Kaiko", "Sector & Thematic", "Kaiko L2 Index", "KSL2", "Real-time (5 sec)", "July 2, 2024", "April 3, 2023", factsheet_sector_thematic⟩,
    ⟨"Kaiko", "Sector & Thematic", "Kaiko L2 Index NYC", "KSL2NYC", "NYC Fixing", "July 2, 2024", "April 3, 2023", factsheet_sector_thematic⟩,
    ⟨"Kaiko", "Sector & Thematic", "Kaiko L2 Index LDN", "KSL2LDN", "LDN Fixing", "July 2, 2024", "April 3, 2023", factsheet_sector_thematic⟩,
    ⟨"Kaiko", "Sector & Thematic", "Kaiko L2 Index SGP", "KSL2SGP", "SGP Fixing", "July 2, 2024", "April 3, 2023", factsheet_sector_thematic⟩,
    ⟨"Kaiko", "Sector & Thematic", "Vinter Cardano Yield Index ", "CASL", "LDN Fixing", "November 10, 2022", "March 06, 2024", "<a href=\"https://marketing.kaiko.com/hubfs/Factsheets%20and%20Methodologies/CASL%20-%20Fact%20Sheet%20-%20multi-asset_casl_end=2025-03-12&start=2020-12-31.pdf\" target=\"_blank\">View Factsheet</a>"⟩,
    ⟨"Kaiko", "Sector & Thematic", "Sygnum Platform Winners Index ", "MOON", "17:00 CET Fixing", "July 21, 2022", "November 01, 2019", "<a href=\"https://marketing.kaiko.com/hubfs/Factsheets%20and%20Methodologies/MOON%20-%20Fact%20Sheet%20-%20multi-asset_moon_end=2025-03-12&start=2020-12-31.pdf\" target=\"_blank\">View Factsheet</a>"⟩,
    ⟨"Kaiko", "Sector & Thematic", "Vinter CF Crypto Web3 Index", "VCFWB3", "LDN Fixing", "May 15, 2023", "January 01, 2021", "<a href=\"https://marketing.kaiko.com/hubfs/Factsheets%20and%20Methodologies/VCFWB3%20-%20Fact%20Sheet%20-multi-asset_vcfwb3_end=2025-03-12&start=2020-12-31.pdf\" target=\"_blank\">View Factsheet</a>"⟩,
    ⟨"Kaiko", "Market", "Kaiko Standard Index", "KMSTA", "Real-time (5 sec)", "January 23, 2025", "April 1, 2014", factsheet_market⟩,
    ⟨"Kaiko", "Market", "Kaiko Standard Index NYC", "KMSTANYC", "NYC Fixing", "January 23, 2025", "April 1, 2014", factsheet_market⟩,
    ⟨"Kaiko", "Market", "Kaiko Standard Index LDN", "KMSTALDN", "LDN Fixing", "January 23, 2025", "April 1, 2014", factsheet_market⟩,
    ⟨"Kaiko", "Market", "Kaiko Standard Index SGP", "KMSTASGP", "SGP Fixing", "January 23, 2025", "April 1, 2014", factsheet_market⟩,
    ⟨"Kaiko", "Market", "Kaiko Small Cap Index", "KMSMA", "Real-time (5 sec)", "January 23, 2025", "January 2, 2015", factsheet_market⟩,
    ⟨"Kaiko", "Market", "Kaiko Small Cap Index NYC", "KMSMANYC", "NYC Fixing", "January 23, 2025", "January 2, 2015", factsheet_market⟩,
    ⟨"Kaiko", "Market", "Kaiko Small Cap Index LDN", "KMSMALDN", "LDN Fixing", "January 23, 2025", "January 2, 2015", factsheet_market⟩,
    ⟨"Kaiko", "Market", "Kaiko Small Cap Index SGP", "KMSMASGP", "SGP Fixing", "January 23, 2025", "January 2, 2015", factsheet_market⟩,
    ⟨"Kaiko", "Market", "Kaiko Mid Cap Index", "KMMID", "Real-time (5 sec)", "January 23, 2025", "April 2, 2018", factsheet_market⟩,
    ⟨"Kaiko", "Market", "Kaiko Mid Cap Index NYC", "KMMIDNYC", "NYC Fixing", "January 23, 2025", "April 2, 2018", factsheet_market⟩,
    ⟨"Kaiko", "Market", "Kaiko Mid Cap Index LDN", "KMMIDLDN", "LDN Fixing", "January 23, 2025", "April 2, 2018", factsheet_market⟩,
    ⟨"Kaiko", "Market", "Kaiko Mid Cap Index SGP", "KMMIDSGP", "SGP Fixing", "January 23, 2025", "April 2, 2018", factsheet_market⟩,
    ⟨"Kaiko", "Market", "Kaiko Large Cap Index", "KMLAR", "Real-time (5 sec)", "January 23, 2025", "April 1, 2014", factsheet_market⟩,
    ⟨"Kaiko", "Market", "Kaiko Large Cap Index NYC", "KMLARNYC", "NYC Fixing", "January 23, 2025", "April 1, 2014", factsheet_market⟩,
    ⟨"Kaiko", "Market", "Kaiko Large Cap Index LDN", "KMLARLDN", "LDN Fixing", "January 23, 2025", "April 1, 2014", factsheet_market⟩,
    ⟨"Kaiko", "Market", "Kaiko Large Cap Index SGP", "KMLARSGP", "SGP Fixing", "January 23, 2025", "April 1, 2014", factsheet_market⟩,
    ⟨"Kaiko", "Market", "Kaiko Investable Index", "KMINV", "Real-time (5 sec)", "January 23, 2025", "April 1, 2014", factsheet_market⟩,
    ⟨"Kaiko", "Market", "Kaiko Investable Index NYC", "KMINVNYC", "NYC Fixing", "January 23, 2025", "April 1, 2014", factsheet_market⟩,
    ⟨"Kaiko", "Market", "Kaiko Investable Index LDN", "KMINVLDN", "LDN Fixing", "January 23, 2025", "April 1, 2014", factsheet_market⟩,
    ⟨"Kaiko", "Market", "Kaiko Investable Index SGP", "KMINVSGP", "SGP Fixing", "January 23, 2025", "April 1, 2014", factsheet_market⟩,
    ⟨"Kaiko", "Market", "Vinter 21Shares Crypto Mid-Cap Index ", "ALTS", "LDN Fixing", "December 14, 2021", "January 01, 2021", "<a href=\"https://marketing.kaiko.com/hubfs/Factsheets%20and%20Methodologies/ALTS%20-%20Fact%20Sheet%20-%20multi-asset_alts_end=2025-03-12&start=2020-12-31.pdf\" target=\"_blank\">View Factsheet</a>"⟩,
    ⟨"Kaiko", "Market", "Vinter 21Shares Crypto Staking Index ", "STAKE", "LDN Fixing", "January 18, 2023", "January 01, 2021", "<a href=\"https://marketing.kaiko.com/hubfs/Factsheets%20and%20Methodologies/multi-asset_stake_end=2025-03-12&start=2020-12-31.pdf\" target=\"_blank\">View Factsheet</a>"⟩,
    ⟨"Kaiko", "Market", "Vinter BOLD Index", "VBNGD", "LDN Fixing", "November 10, 2023", "January 01, 2020", "<a href=\"https://marketing.kaiko.com/hubfs/Factsheets%20and%20Methodologies/VBNGD%20-%20Fact%20Sheet%20-%20multi-asset_vbngd_end=2025-03-12&start=2020-12-31.pdf\" target=\"_blank\">View Factsheet</a>"⟩,
    ⟨"Kaiko", "Market", "Vinter CF Crypto Momentum Index", "VCFMOM", "LDN Fixing", "May 15, 2023", "January 01, 2021", "<a href=\"https://marketing.kaiko.com/hubfs/Factsheets%20and%20Methodologies/VCFMOM%20-%20Fact%20Sheet%20-multi-asset_vcfmom_end=2025-03-12&start=2020-12-31.pdf\" target=\"_blank\">View Factsheet</a>"⟩,
    ⟨"Kaiko", "Market", "Vinter Diffuse Digital 30 Index", "DDV", "LDN Fixing", "July 02, 2022", "January 01, 2021", "<a href=\"https://marketing.kaiko.com/hubfs/Factsheets%20and%20Methodologies/DDV%20-%20Fact%20Sheet%20-%20multi-asset_ddv_end=2025-03-12&start=2020-12-31.pdf\" target=\"_blank\">View Factsheet</a>"⟩,
    ⟨"Kaiko", "Market", "Vinter Hashdex Risk Parity Momentum Crypto Index", "VHASHMOM", "17:00 CET Fixing", "September 05, 2022", "January 01, 2021", "<a href=\"https://marketing.kaiko.com/hubfs/VHASHMOM%20Kaiko%20Factsheet.pdf\" target=\"_blank\">View Factsheet</a>"⟩,
    ⟨"Kaiko", "Market", "Vinter Bytetree BOLD1 Inverse Volatility Index", "BOLD1", "LDN Fixing", "November 10, 2023", "January 01, 2020", "<a target=\"_blank\">Coming Soon</a>"⟩
  ]

/-- Group accumulator step (`Rates_update.py:167`–171): `defaultdict(list)`
keyed by base ticker, appending each item to its group.  Python dicts keep
keys in first-insertion order, so the accumulator is an ordered
association list. -/
def insertGroup (groups : List (String × List Record)) (k : String) (r : Record) :
    List (String × List Record) :=
  match groups with
  | [] => [(k, [r])]
  | (k', rs) :: rest =>
    if k' = k then (k', rs ++ [r]) :: rest else (k', rs) :: insertGroup rest k r

/-- The `ticker_groups` dict of `merge_location_variants`. -/
def groupByBase (items : List Record) : List (String × List Record) :=
  items.foldl (fun groups item => insertGroup groups (get_base_ticker item.ticker) item) []

/-- Placeholder for the `IndexError` Python would raise on an empty group;
`groupByBase` never produces an empty group. -/
def dummyRecord : Record := ⟨"", "", "", "", "", "", "", ""⟩

/-- The base-variant scan of `merge_location_variants`
(`Rates_update.py:179`–187): walk the group, remembering the last record
whose ticker equals the base ticker and collecting the others in order. -/
def splitBaseVariant (base_ticker : String) (variants : List Record) :
    Option Record × List Record :=
  variants.foldl
    (fun acc variant =>
      if variant.ticker = base_ticker then (some variant, acc.2)
      else (acc.1, acc.2 ++ [variant]))
    (none, [])

/-- The per-group body of `merge_location_variants`
(`Rates_update.py:178`–221): pick the base variant (falling back to the
first record when no ticker matches the base exactly), collect the
locations present among the variant tickers in the fixed order NYC, LDN,
SGP, and build the merged row from the base variant's fields. -/
def mergeGroup (base_ticker : String) (variants : List Record) : Record :=
  let scanned := splitBaseVariant base_ticker variants
  let base_variant :=
    match scanned.1 with
    | some v => v
    | none => variants.headD dummyRecord
  let location_variants :=
    match scanned.1 with
    | some _ => scanned.2
    | none => variants.tail
  let locations_found := locSuffixes.filter
    (fun location => location_variants.any (fun variant => pyEndsWith variant.ticker location))
  let disseminations := base_variant.disseminations :: locations_found
  let combined_disseminations := pyJoin ", " disseminations
  { brand := base_variant.brand
    family := base_variant.family
    name := base_variant.name
    ticker := base_ticker
    disseminations := combined_disseminations
    launchDate := base_variant.launchDate
    inceptionDate := base_variant.inceptionDate
    factsheet := base_variant.factsheet }

/-- `merge_location_variants` (`Rates_update.py:162`): one merged row per
group, in group-creation order. -/
def merge_location_variants (items : List Record) : List Record :=
  (groupByBase items).map (fun g => mergeGroup g.1 g.2)

/-- The filter of `write_filtered_csv` (`Rates_update.py:234`–237):
`item[-1] and item[-1] != '-' and item[-1] != ''` (a Python string is
truthy iff non-empty). -/
def filtered_items (items : List Record) : List Record :=
  items.filter (fun item =>
    decide (item.factsheet ≠ "") && decide (item.factsheet ≠ "-") && decide (item.factsheet ≠ ""))

/-- The per-entry factsheet override of `pull_and_save_data_to_csv`
(`Rates_update.py:261`–270): when the prior CSV holds a non-empty value
for the entry's ticker, it replaces the static factsheet, with one more
trailing-comma strip. -/
def updateEntry (existing_fact_sheets : List (String × String)) (entry : Record) : Record :=
  let factsheet := entry.factsheet
  let factsheet :=
    match lookupFacts existing_fact_sheets entry.ticker with
    | some v =>
      if v ≠ "" then (if pyEndsWith v "," then pyDropRight v 1 else v) else factsheet
    | none => factsheet
  { entry with factsheet := factsheet }

/-- The `fixed_items_with_fact_sheets` list of `pull_and_save_data_to_csv`
(`Rates_update.py:260`–270). -/
def fixed_items_with_fact_sheets (existing_fact_sheets : List (String × String)) : List Record :=
  get_fixed_entries.map (updateEntry existing_fact_sheets)

/-- Python string `≤`: lexicographic comparison of code points, a strict
prefix comparing below the longer string. -/
def strLeAux : List Char → List Char → Bool
  | [], _ => true
  | _ :: _, [] => false
  | a :: as, b :: bs =>
    if a.toNat < b.toNat then true
    else if b.toNat < a.toNat then false
    else strLeAux as bs

/-- The ordering used by `sorted(merged_items, key=lambda row: row[3])`
(`Rates_update.py:278`): compare rows by ticker. -/
def tickerLe (a b : Record) : Prop :=
  strLeAux a.ticker.data b.ticker.data = true

instance : DecidableRel tickerLe := fun a b =>
  inferInstanceAs (Decidable (strLeAux a.ticker.data b.ticker.data = true))

/-- `sorted(merged_items, key=lambda row: row[3])`: Python's sort is a
stable comparison sort; insertion sort is stable, and the merged rows have
pairwise-distinct tickers, so the result coincides. -/
def sortByTicker (items : List Record) : List Record :=
  List.insertionSort tickerLe items

/-- The record flow of `pull_and_save_data_to_csv` (`Rates_update.py:248`):
read the prior CSV, override factsheets, merge location variants, sort by
ticker.  The returned list is the row content of the written full CSV. -/
def pull_and_save_data (priorRows : List Record) : List Record :=
  let existing_fact_sheets := get_existing_fact_sheets priorRows
  let updated := fixed_items_with_fact_sheets existing_fact_sheets
  let merged_items := merge_location_variants updated
  sortByTicker merged_items

/-- The spec's claimed result of re-reading the full CSV: the
ticker→factsheet mapping of the written records restricted to non-empty
factsheet values.  (Refinement target for the round-trip claim; this
definition follows the spec's words, not the source.) -/
def specFactsheetMapping (rows : List Record) : List (String × String) :=
  rows.filterMap (fun r => if r.factsheet ≠ "" then some (r.ticker, r.factsheet) else none)

/-! ### Basic lemmas about the string primitives -/

theorem string_data_append (a b : String) : (a ++ b).data = a.data ++ b.data := rfl

theorem string_length_eq (s : String) : s.length = s.data.length := rfl

/-- Dropping the length of a suffix and re-appending the suffix recovers
the original string. -/
theorem pyDropRight_append_of_suffix {s suffix : String}
    (h : suffix.data <:+ s.data) :
    pyDropRight s suffix.length ++ suffix = s := by
  obtain ⟨u, hu⟩ := h
  apply String.ext
  rw [string_data_append]
  show (s.data.take (s.data.length - suffix.length)) ++ suffix.data = s.data
  rw [← hu, string_length_eq]
  have hlen : (u ++ suffix.data).length - suffix.data.length = u.length := by
    simp
  rw [hlen, List.take_left]

/-! ### C6: base-ticker and location extraction -/

/-- C6: `get_base_ticker` strips a trailing location suffix if present,
checking NYC, LDN, SGP in that priority order with first match winning,
and otherwise returns the ticker unchanged; `get_location_from_ticker`
returns the matched suffix under the same priority order, or `none` when
no suffix matches. -/
theorem claim_C6 (t : String) :
    if pyEndsWith t "NYC" = true then
      get_base_ticker t = pyDropRight t ("NYC".length) ∧
        get_location_from_ticker t = some "NYC"
    else if pyEndsWith t "LDN" = true then
      get_base_ticker t = pyDropRight t ("LDN".length) ∧
        get_location_from_ticker t = some "LDN"
    else if pyEndsWith t "SGP" = true then
      get_base_ticker t = pyDropRight t ("SGP".length) ∧
        get_location_from_ticker t = some "SGP"
    else
      get_base_ticker t = t ∧ get_location_from_ticker t = none := by
  cases h1 : pyEndsWith t "NYC" <;> cases h2 : pyEndsWith t "LDN" <;>
    cases h3 : pyEndsWith t "SGP" <;>
      simp [get_base_ticker, get_location_from_ticker, locSuffixes, List.find?, h1, h2, h3]

/-! ### C10: decomposition identity -/

/-- C10: if `get_location_from_ticker t` returns a suffix `s` then
`get_base_ticker t ++ s = t`, and if it returns `none` then
`get_base_ticker t = t`; a bare suffix such as `"NYC"` decomposes into the
empty base ticker plus that suffix. -/
theorem claim_C10 (t : String) :
    (∀ s, get_location_from_ticker t = some s → get_base_ticker t ++ s = t) ∧
    (get_location_from_ticker t = none → get_base_ticker t = t) ∧
    get_base_ticker "NYC" = "" ∧ get_location_from_ticker "NYC" = some "NYC" := by
  refine ⟨?_, ?_, by decide, by decide⟩
  · intro s hs
    have hp : pyEndsWith t s = true := List.find?_some hs
    have hsfx : s.data <:+ t.data := of_decide_eq_true hp
    have hbase : get_base_ticker t = pyDropRight t s.length := by
      unfold get_base_ticker
      unfold get_location_from_ticker at hs
      rw [hs]
    rw [hbase]
    exact pyDropRight_append_of_suffix hsfx
  · intro hn
    unfold get_base_ticker
    unfold get_location_from_ticker at hn
    rw [hn]

/-- Witness for C10 at the concrete ticker `"KT5NYC"`. -/
theorem claim_C10_witness :
    get_location_from_ticker "KT5NYC" = some "NYC" ∧
      get_base_ticker "KT5NYC" ++ "NYC" = "KT5NYC" :=
  ⟨by decide, (claim_C10 "KT5NYC").1 "NYC" (by decide)⟩

/-! ### C5: the filtered output -/

/-- C5: the filtered output is a subset of the full output (a sublist, so
schema and order are preserved), and a record appears in it iff its
factsheet is non-empty and not `"-"`. -/
theorem claim_C5 (items : List Record) :
    (filtered_items items).Sublist items ∧
    ∀ r, r ∈ filtered_items items ↔
      r ∈ items ∧ r.factsheet ≠ "" ∧ r.factsheet ≠ "-" := by
  constructor
  · exact List.filter_sublist items
  · intro r
    simp only [filtered_items, List.mem_filter, Bool.and_eq_true, decide_eq_true_eq]
    tauto

/-! ### Grouping lemmas -/

/-- The keys (base tickers) of a group accumulator. -/
def keysOf (gs : List (String × List Record)) : List String := gs.map Prod.fst

theorem keysOf_cons (p : String × List Record) (gs : List (String × List Record)) :
    keysOf (p :: gs) = p.1 :: keysOf gs := rfl

/-- Inserting into the group accumulator appends the key exactly when it
is new. -/
theorem keysOf_insertGroup (gs : List (String × List Record)) (k : String) (r : Record) :
    keysOf (insertGroup gs k r) =
      if k ∈ keysOf gs then keysOf gs else keysOf gs ++ [k] := by
  induction gs with
  | nil => simp [insertGroup, keysOf]
  | cons p rest ih =>
    obtain ⟨k', rs⟩ := p
    by_cases hk : k' = k
    · subst hk
      simp [insertGroup, keysOf_cons]
    · have hne : ¬(k = k') := fun h => hk h.symm
      by_cases hmem : k ∈ keysOf rest
      · simp [insertGroup, hk, keysOf_cons, ih, hmem, hne]
      · simp [insertGroup, hk, keysOf_cons, ih, hmem, hne]

theorem keysOf_nodup_insertGroup (gs : List (String × List Record)) (k : String) (r : Record)
    (h : (keysOf gs).Nodup) : (keysOf (insertGroup gs k r)).Nodup := by
  rw [keysOf_insertGroup]
  split
  · exact h
  · next hmem => simp [List.nodup_append, h, hmem]

theorem keysOf_toFinset_insertGroup (gs : List (String × List Record)) (k : String) (r : Record) :
    (keysOf (insertGroup gs k r)).toFinset = insert k (keysOf gs).toFinset := by
  rw [keysOf_insertGroup]
  split
  · next hmem =>
    rw [Finset.insert_eq_self.mpr (List.mem_toFinset.mpr hmem)]
  · next hmem =>
    simp [List.toFinset_append, Finset.union_comm, Finset.insert_eq]

/-- The keys collected by the grouping fold are exactly the distinct base
tickers of the input (as a finite set), and are pairwise distinct. -/
theorem groupByBase_keys (items : List Record) :
    ∀ gs : List (String × List Record),
      (keysOf (items.foldl
          (fun groups item => insertGroup groups (get_base_ticker item.ticker) item) gs)).toFinset
          = (keysOf gs).toFinset ∪ (items.map (fun r => get_base_ticker r.ticker)).toFinset ∧
      ((keysOf gs).Nodup →
        (keysOf (items.foldl
          (fun groups item => insertGroup groups (get_base_ticker item.ticker) item) gs)).Nodup) := by
  induction items with
  | nil => intro gs; simp
  | cons r rest ih =>
    intro gs
    constructor
    · rw [List.foldl_cons, (ih (insertGroup gs (get_base_ticker r.ticker) r)).1,
        keysOf_toFinset_insertGroup]
      simp [Finset.insert_union, Finset.union_insert]
    · intro hnd
      rw [List.foldl_cons]
      exact (ih _).2 (keysOf_nodup_insertGroup _ _ _ hnd)

/-! ### C2: one merged row per distinct base ticker -/

/-- C2: the number of merged rows equals the number of distinct base
tickers of the input, and is therefore at most the input count. -/
theorem claim_C2 (items : List Record) :
    (merge_location_variants items).length
      = ((items.map (fun r => get_base_ticker r.ticker)).toFinset).card ∧
    (merge_location_variants items).length ≤ items.length := by
  have hkeys := groupByBase_keys items []
  have h1 : (keysOf (groupByBase items)).toFinset
      = (items.map (fun r => get_base_ticker r.ticker)).toFinset := by
    simpa [keysOf, groupByBase] using hkeys.1
  have h2 : (keysOf (groupByBase items)).Nodup := hkeys.2 (by simp [keysOf])
  have hlen : (merge_location_variants items).length = (keysOf (groupByBase items)).length := by
    simp [merge_location_variants, keysOf]
  have hcard : (merge_location_variants items).length
      = ((items.map (fun r => get_base_ticker r.ticker)).toFinset).card := by
    rw [hlen, ← List.toFinset_card_of_nodup h2, h1]
  refine ⟨hcard, ?_⟩
  rw [hcard]
  calc ((items.map (fun r => get_base_ticker r.ticker)).toFinset).card
      ≤ (items.map (fun r => get_base_ticker r.ticker)).length :=
        List.toFinset_card_le _
    _ = items.length := List.length_map _ _

/-! ### C4: merging an already-merged set -/

theorem insertGroup_of_not_mem (gs : List (String × List Record)) (k : String) (r : Record)
    (h : k ∉ keysOf gs) : insertGroup gs k r = gs ++ [(k, [r])] := by
  induction gs with
  | nil => rfl
  | cons p rest ih =>
    obtain ⟨k', rs⟩ := p
    rw [keysOf_cons, List.mem_cons] at h
    push_neg at h
    have hk : ¬(k' = k) := fun hh => h.1 hh.symm
    simp [insertGroup, hk, ih h.2]

/-- When no input ticker carries a location suffix and tickers are
pairwise distinct, grouping yields one singleton group per record, in
input order. -/
theorem foldl_insertGroup_singletons (items : List Record)
    (hbase : ∀ r ∈ items, get_base_ticker r.ticker = r.ticker) :
    ∀ gs : List (String × List Record),
      (∀ r ∈ items, r.ticker ∉ keysOf gs) →
      (items.map (fun r => r.ticker)).Nodup →
      items.foldl (fun groups item => insertGroup groups (get_base_ticker item.ticker) item) gs
        = gs ++ items.map (fun r => (r.ticker, [r])) := by
  induction items with
  | nil => intro gs _ _; simp
  | cons r rest ih =>
    intro gs hdisj hnd
    rw [List.foldl_cons, hbase r (by simp),
      insertGroup_of_not_mem gs r.ticker r (hdisj r (by simp))]
    simp only [List.map_cons, List.nodup_cons, List.mem_map] at hnd
    have hdisj' : ∀ x ∈ rest, x.ticker ∉ keysOf (gs ++ [(r.ticker, [r])]) := by
      intro x hx
      have h1 : x.ticker ∉ keysOf gs := hdisj x (by simp [hx])
      have h2 : x.ticker ≠ r.ticker := fun hh => hnd.1 ⟨x, hx, hh⟩
      have hsingle : keysOf [(r.ticker, ([r] : List Record))] = [r.ticker] := rfl
      rw [show keysOf (gs ++ [(r.ticker, [r])]) = keysOf gs ++ keysOf [(r.ticker, [r])] from
        List.map_append _ _ _, hsingle]
      simp [List.mem_append, h1, h2]
    rw [ih (fun x hx => hbase x (by simp [hx])) (gs ++ [(r.ticker, [r])]) hdisj' hnd.2]
    simp

/-- A singleton group merges to its only record unchanged. -/
theorem mergeGroup_singleton (r : Record) : mergeGroup r.ticker [r] = r := by
  simp [mergeGroup, splitBaseVariant, pyJoin, locSuffixes]

/-- A record carrying no location suffix whose group is itself alone. -/
def rAAA : Record :=
  ⟨"Kaiko", "Blue-Chip", "Index A", "AAA", "Real-time (5 sec)",
    "January 1, 2024", "January 1, 2024", ""⟩

/-- A second suffix-free record with a distinct ticker. -/
def rBBB : Record :=
  ⟨"Kaiko", "Market", "Index B", "BBB", "LDN Fixing",
    "January 2, 2024", "January 2, 2024", "-"⟩

/-- Counterexample to C4 as stated: the list `[rAAA, rAAA]` has no
location-suffixed ticker, yet merging collapses the duplicated ticker to
one row, so the list is not returned unchanged. -/
theorem claim_C4_counterexample :
    (∀ r ∈ [rAAA, rAAA], ∀ suffix ∈ locSuffixes, pyEndsWith r.ticker suffix = false) ∧
    merge_location_variants [rAAA, rAAA] = [rAAA] ∧
    merge_location_variants [rAAA, rAAA] ≠ [rAAA, rAAA] := by
  refine ⟨?_, by decide, by decide⟩
  decide

/-- C4 (amended): merging a record list in which no ticker ends with NYC,
LDN, or SGP and all tickers are pairwise distinct returns the same list
unchanged, in the same order. -/
theorem claim_C4_amended (items : List Record)
    (hsfx : ∀ r ∈ items, ∀ suffix ∈ locSuffixes, pyEndsWith r.ticker suffix = false)
    (hnd : (items.map (fun r => r.ticker)).Nodup) :
    merge_location_variants items = items := by
  have hbase : ∀ r ∈ items, get_base_ticker r.ticker = r.ticker := by
    intro r hr
    unfold get_base_ticker
    have hnone : locSuffixes.find? (fun suffix => pyEndsWith r.ticker suffix) = none :=
      List.find?_eq_none.mpr (fun s hs => by simp [hsfx r hr s hs])
    rw [hnone]
  unfold merge_location_variants groupByBase
  rw [foldl_insertGroup_singletons items hbase [] (by simp [keysOf]) hnd,
    List.nil_append, List.map_map]
  calc items.map ((fun g : String × List Record => mergeGroup g.1 g.2) ∘
        (fun r => (r.ticker, [r])))
      = items.map id := by
        apply List.map_congr_left
        intro r _
        exact mergeGroup_singleton r
    _ = items := List.map_id items

/-- Witness for the amended C4 on a concrete two-record list. -/
theorem claim_C4_amended_witness :
    (∀ r ∈ [rAAA, rBBB], ∀ suffix ∈ locSuffixes, pyEndsWith r.ticker suffix = false) ∧
    (([rAAA, rBBB].map (fun r => r.ticker)).Nodup) ∧
    merge_location_variants [rAAA, rBBB] = [rAAA, rBBB] :=
  ⟨by decide, by decide, claim_C4_amended [rAAA, rBBB] (by decide) (by decide)⟩

/-! ### The base-variant scan -/

/-- The first component of the scan is the last record of the group whose
ticker equals the base ticker (Python's loop keeps overwriting
`base_variant`), expressed as a `find?` on the reversed group. -/
theorem splitBaseVariant_fst_foldl (b : String) (vs : List Record) :
    ∀ acc : Option Record × List Record,
      (vs.foldl
        (fun acc variant =>
          if variant.ticker = b then (some variant, acc.2)
          else (acc.1, acc.2 ++ [variant])) acc).1
        = (vs.reverse.find? (fun r => decide (r.ticker = b))).or acc.1 := by
  induction vs with
  | nil => intro acc; simp
  | cons v rest ih =>
    intro acc
    rw [List.foldl_cons, ih, List.reverse_cons, List.find?_append, Option.or_assoc]
    by_cases hv : v.ticker = b
    · simp [hv, List.find?]
    · simp [hv, List.find?]

/-- The second component of the scan collects, in order, the records whose
ticker differs from the base ticker. -/
theorem splitBaseVariant_snd_foldl (b : String) (vs : List Record) :
    ∀ acc : Option Record × List Record,
      (vs.foldl
        (fun acc variant =>
          if variant.ticker = b then (some variant, acc.2)
          else (acc.1, acc.2 ++ [variant])) acc).2
        = acc.2 ++ vs.filter (fun r => !decide (r.ticker = b)) := by
  induction vs with
  | nil => intro acc; simp
  | cons v rest ih =>
    intro acc
    rw [List.foldl_cons, ih]
    by_cases hv : v.ticker = b
    · simp [hv, List.filter_cons]
    · simp [hv, List.filter_cons]

theorem splitBaseVariant_fst (b : String) (vs : List Record) :
    (splitBaseVariant b vs).1 = vs.reverse.find? (fun r => decide (r.ticker = b)) := by
  rw [splitBaseVariant, splitBaseVariant_fst_foldl]
  exact Option.or_none

theorem splitBaseVariant_snd (b : String) (vs : List Record) :
    (splitBaseVariant b vs).2 = vs.filter (fun r => !decide (r.ticker = b)) := by
  rw [splitBaseVariant, splitBaseVariant_snd_foldl]
  rfl

/-- A list whose `filter` is a singleton `find?`s that element. -/
theorem find?_of_filter_singleton {p : Record → Bool} {l : List Record} {a : Record}
    (h : l.filter p = [a]) : l.find? p = some a := by
  induction l with
  | nil => simp at h
  | cons x xs ih =>
    by_cases hx : p x = true
    · rw [List.filter_cons_of_pos hx] at h
      rw [List.find?_cons_of_pos _ hx]
      rw [List.cons.injEq] at h
      rw [h.1]
    · rw [List.filter_cons_of_neg hx] at h
      rw [List.find?_cons_of_neg _ hx]
      exact ih h

theorem insertGroup_values_nonempty (gs : List (String × List Record)) (k : String) (r : Record)
    (h : ∀ p ∈ gs, p.2 ≠ []) : ∀ p ∈ insertGroup gs k r, p.2 ≠ [] := by
  induction gs with
  | nil =>
    intro p hp
    simp only [insertGroup, List.mem_singleton] at hp
    subst hp
    simp
  | cons q rest ih =>
    obtain ⟨k', rs⟩ := q
    intro p hp
    by_cases hk : k' = k
    · simp only [insertGroup, if_pos hk, List.mem_cons] at hp
      rcases hp with hp | hp
      · subst hp; simp
      · exact h p (by simp [hp])
    · simp only [insertGroup, if_neg hk, List.mem_cons] at hp
      rcases hp with hp | hp
      · subst hp; exact h _ (by simp)
      · exact ih (fun q hq => h q (by simp [hq])) p hp

/-- Every group produced by the grouping fold is non-empty. -/
theorem groupByBase_values_nonempty (items : List Record) :
    ∀ p ∈ groupByBase items, p.2 ≠ [] := by
  have aux : ∀ (its : List Record) (gs : List (String × List Record)),
      (∀ p ∈ gs, p.2 ≠ []) →
      ∀ p ∈ its.foldl
        (fun groups item => insertGroup groups (get_base_ticker item.ticker) item) gs,
        p.2 ≠ [] := by
    intro its
    induction its with
    | nil => intro gs h; simpa using h
    | cons r rest ih =>
      intro gs h
      rw [List.foldl_cons]
      exact ih _ (insertGroup_values_nonempty _ _ _ h)
  exact aux items [] (by simp)

/-! ### C7: canonical-record selection and verbatim field copy -/

/-- C7: for every group produced by the merge's grouping step in which at
most one record matches the base ticker exactly, the merged row is built
from the canonical record — the unique exact match, or the group's first
record when no exact match exists — copying brand, family, name, launch
date, inception date and factsheet verbatim and carrying the base ticker. -/
theorem claim_C7 (items : List Record) (b : String) (vs : List Record)
    (hmem : (b, vs) ∈ groupByBase items)
    (huniq : (vs.filter (fun r => decide (r.ticker = b))).length ≤ 1) :
    mergeGroup b vs ∈ merge_location_variants items ∧
    ∃ hne : vs ≠ [],
      ∃ c : Record,
        (vs.find? (fun r => decide (r.ticker = b)) = some c ∨
          (vs.find? (fun r => decide (r.ticker = b)) = none ∧ c = vs.head hne)) ∧
        (mergeGroup b vs).brand = c.brand ∧
        (mergeGroup b vs).family = c.family ∧
        (mergeGroup b vs).name = c.name ∧
        (mergeGroup b vs).launchDate = c.launchDate ∧
        (mergeGroup b vs).inceptionDate = c.inceptionDate ∧
        (mergeGroup b vs).factsheet = c.factsheet ∧
        (mergeGroup b vs).ticker = b := by
  refine ⟨?_, ?_⟩
  · exact List.mem_map_of_mem (fun g => mergeGroup g.1 g.2) hmem
  · have hne : vs ≠ [] := groupByBase_values_nonempty items (b, vs) hmem
    refine ⟨hne, ?_⟩
    rcases hfil : vs.filter (fun r => decide (r.ticker = b)) with _ | ⟨a, tail⟩
    · -- no exact match: fallback to the first record of the group
      have hnone : vs.find? (fun r => decide (r.ticker = b)) = none := by
        rw [List.find?_eq_none]
        intro x hx
        have := List.filter_eq_nil_iff.mp hfil x hx
        simpa using this
      have hrnone : vs.reverse.find? (fun r => decide (r.ticker = b)) = none := by
        rw [List.find?_eq_none]
        intro x hx
        have := List.filter_eq_nil_iff.mp hfil x (List.mem_reverse.mp hx)
        simpa using this
      have hsplit : (splitBaseVariant b vs).1 = none := by
        rw [splitBaseVariant_fst, hrnone]
      refine ⟨vs.head hne, Or.inr ⟨hnone, rfl⟩, ?_⟩
      have hheadD : vs.head?.getD dummyRecord = vs.head hne := by
        cases vs with
        | nil => exact absurd rfl hne
        | cons x xs => rfl
      simp [mergeGroup, hsplit, hheadD]
    · -- exactly one exact match `a`
      have htail : tail = [] := by
        rw [hfil] at huniq
        simpa using huniq
      subst htail
      have hrfind : vs.reverse.find? (fun r => decide (r.ticker = b)) = some a := by
        apply find?_of_filter_singleton
        rw [List.filter_reverse, hfil]
        rfl
      have hsplit : (splitBaseVariant b vs).1 = some a := by
        rw [splitBaseVariant_fst, hrfind]
      refine ⟨a, Or.inl (find?_of_filter_singleton hfil), ?_⟩
      simp [mergeGroup, hsplit]

/-- A group that is a single suffix-free record (used as concrete witness
input). -/
theorem claim_C7_witness :
    ("AAA", [rAAA]) ∈ groupByBase [rAAA] ∧
    (([rAAA].filter (fun r => decide (r.ticker = "AAA"))).length ≤ 1) ∧
    (mergeGroup "AAA" [rAAA] ∈ merge_location_variants [rAAA] ∧
      ∃ hne : [rAAA] ≠ ([] : List Record),
        ∃ c : Record,
          ([rAAA].find? (fun r => decide (r.ticker = "AAA")) = some c ∨
            ([rAAA].find? (fun r => decide (r.ticker = "AAA")) = none ∧
              c = [rAAA].head hne)) ∧
          (mergeGroup "AAA" [rAAA]).brand = c.brand ∧
          (mergeGroup "AAA" [rAAA]).family = c.family ∧
          (mergeGroup "AAA" [rAAA]).name = c.name ∧
          (mergeGroup "AAA" [rAAA]).launchDate = c.launchDate ∧
          (mergeGroup "AAA" [rAAA]).inceptionDate = c.inceptionDate ∧
          (mergeGroup "AAA" [rAAA]).factsheet = c.factsheet ∧
          (mergeGroup "AAA" [rAAA]).ticker = "AAA") :=
  ⟨by decide, by decide, claim_C7 [rAAA] "AAA" [rAAA] (by decide) (by decide)⟩

/-! ### C1: merged dissemination string -/

/-- The `KT5` base record of the static catalogue. -/
def rKT5 : Record :=
  ⟨"Kaiko", "Blue-Chip", "Kaiko 5 Index", "KT5", "Real-time (5 sec)",
    "October 17, 2023", "March 19, 2018", factsheet_blue_chip⟩

/-- The `KT5NYC` location variant. -/
def rKT5NYC : Record :=
  ⟨"Kaiko", "Blue-Chip", "Kaiko 5 Index NYC", "KT5NYC", "NYC Fixing",
    "October 17, 2023", "March 19, 2018", factsheet_blue_chip⟩

/-- The `KT5LDN` location variant. -/
def rKT5LDN : Record :=
  ⟨"Kaiko", "Blue-Chip", "Kaiko 5 Index LDN", "KT5LDN", "LDN Fixing",
    "October 17, 2023", "March 19, 2018", factsheet_blue_chip⟩

/-- The `KT5SGP` location variant. -/
def rKT5SGP : Record :=
  ⟨"Kaiko", "Blue-Chip", "Kaiko 5 Index SGP", "KT5SGP", "SGP Fixing",
    "October 17, 2023", "March 19, 2018", factsheet_blue_chip⟩

/-- The KT5 group in the input order named by the claim:
`KT5LDN, KT5SGP, KT5NYC, KT5`. -/
def kt5Input : List Record := [rKT5LDN, rKT5SGP, rKT5NYC, rKT5]

/-- The row `merge_location_variants` actually produces for the KT5
group. -/
def kt5Merged : Record :=
  ⟨"Kaiko", "Blue-Chip", "Kaiko 5 Index", "KT5", "Real-time (5 sec), NYC, LDN, SGP",
    "October 17, 2023", "March 19, 2018", factsheet_blue_chip⟩

/-- Counterexample to C1 as stated: for the KT5 group in the claimed input
order the merged dissemination is `"Real-time (5 sec), NYC, LDN, SGP"` —
the location suffixes themselves are appended, not the `"... Fixing"`
dissemination labels of the variant rows. -/
theorem claim_C1_counterexample :
    (merge_location_variants kt5Input).map (fun r => r.disseminations)
        = ["Real-time (5 sec), NYC, LDN, SGP"] ∧
    (merge_location_variants kt5Input).map (fun r => r.disseminations)
        ≠ ["Real-time (5 sec), NYC Fixing, LDN Fixing, SGP Fixing"] := by
  exact ⟨by decide, by decide⟩

/-- When every record of a list shares one base ticker, grouping yields a
single group holding the whole list in input order. -/
theorem groupByBase_const (b : String) (items : List Record)
    (hbase : ∀ r ∈ items, get_base_ticker r.ticker = b) (hne : items ≠ []) :
    groupByBase items = [(b, items)] := by
  have aux : ∀ (its : List Record), (∀ r ∈ its, get_base_ticker r.ticker = b) →
      ∀ rs : List Record,
        its.foldl
          (fun groups item => insertGroup groups (get_base_ticker item.ticker) item) [(b, rs)]
          = [(b, rs ++ its)] := by
    intro its
    induction its with
    | nil => intro _ rs; simp
    | cons r rest ih =>
      intro h rs
      rw [List.foldl_cons, h r (by simp)]
      have hstep : insertGroup [(b, rs)] b r = [(b, rs ++ [r])] := by
        simp [insertGroup]
      rw [hstep, ih (fun x hx => h x (by simp [hx])) (rs ++ [r])]
      simp
  cases items with
  | nil => exact absurd rfl hne
  | cons r rest =>
    unfold groupByBase
    rw [List.foldl_cons, hbase r (by simp)]
    have hstep : insertGroup [] b r = [(b, [r])] := rfl
    rw [hstep, aux rest (fun x hx => hbase x (by simp [hx])) [r]]
    rfl

/-- C1 (amended): for every group of records sharing a base ticker, the
merged dissemination string equals the canonical record's own
dissemination followed by the location suffix strings (`"NYC"`, `"LDN"`,
`"SGP"` — not the variants' `"... Fixing"` labels) found among the variant
tickers, ordered in the fixed priority NYC, LDN, SGP regardless of the
order the variants appeared in input (the search set only enters through
`any`, so only membership matters), joined with `", "`.  The canonical
record is the exact base-ticker match (the last, if several) and the
variants are the records whose ticker differs from the base; when no exact
match exists the group's first record is canonical and the rest are the
variants.  In particular, any input ordering of the KT5 group (tickers
KT5LDN, KT5SGP, KT5NYC, KT5) merges to the single row with dissemination
`"Real-time (5 sec), NYC, LDN, SGP"`. -/
theorem claim_C1_amended (items : List Record) (b : String) (vs : List Record)
    (hmem : (b, vs) ∈ groupByBase items) :
    (∃ hne : vs ≠ [],
      (∀ c, vs.reverse.find? (fun r => decide (r.ticker = b)) = some c →
        (mergeGroup b vs).disseminations
          = pyJoin ", " (c.disseminations ::
              locSuffixes.filter (fun location =>
                (vs.filter (fun r => !decide (r.ticker = b))).any
                  (fun variant => pyEndsWith variant.ticker location)))) ∧
      (vs.reverse.find? (fun r => decide (r.ticker = b)) = none →
        (mergeGroup b vs).disseminations
          = pyJoin ", " ((vs.head hne).disseminations ::
              locSuffixes.filter (fun location =>
                vs.tail.any (fun variant => pyEndsWith variant.ticker location))))) ∧
    (∀ l, l.Perm kt5Input → merge_location_variants l = [kt5Merged]) := by
  constructor
  · have hne : vs ≠ [] := groupByBase_values_nonempty items (b, vs) hmem
    refine ⟨hne, ?_, ?_⟩
    · intro c hc
      have hsplit1 : (splitBaseVariant b vs).1 = some c := by
        rw [splitBaseVariant_fst]; exact hc
      have hsplit2 : (splitBaseVariant b vs).2
          = vs.filter (fun r => !decide (r.ticker = b)) := splitBaseVariant_snd b vs
      simp only [mergeGroup, hsplit1]
      rw [hsplit2]
    · intro hcnone
      have hsplit1 : (splitBaseVariant b vs).1 = none := by
        rw [splitBaseVariant_fst]; exact hcnone
      have hheadD : vs.headD dummyRecord = vs.head hne := by
        cases vs with
        | nil => exact absurd rfl hne
        | cons x xs => rfl
      simp only [mergeGroup, hsplit1]
      rw [hheadD]
  intro l h
  have hbase : ∀ r ∈ l, get_base_ticker r.ticker = "KT5" := by
    intro r hr
    have hr4 : r = rKT5LDN ∨ r = rKT5SGP ∨ r = rKT5NYC ∨ r = rKT5 := by
      simpa [kt5Input] using h.subset hr
    rcases hr4 with h' | h' | h' | h' <;> subst h' <;> decide
  have hne : l ≠ [] := by
    intro hnil
    rw [hnil] at h
    have := h.length_eq
    simp [kt5Input] at this
  rw [merge_location_variants, groupByBase_const "KT5" l hbase hne, List.map_cons,
    List.map_nil]
  have hfilter : l.filter (fun r => decide (r.ticker = "KT5")) = [rKT5] := by
    have hperm := h.filter (fun r => decide (r.ticker = "KT5"))
    have heq : kt5Input.filter (fun r => decide (r.ticker = "KT5")) = [rKT5] := by decide
    rw [heq] at hperm
    exact List.perm_singleton.mp hperm
  have hsplit1 : (splitBaseVariant "KT5" l).1 = some rKT5 := by
    rw [splitBaseVariant_fst]
    apply find?_of_filter_singleton
    rw [List.filter_reverse, hfilter]
    rfl
  have hlvperm : ((splitBaseVariant "KT5" l).2).Perm [rKT5LDN, rKT5SGP, rKT5NYC] := by
    rw [splitBaseVariant_snd]
    have hperm := h.filter (fun r => !decide (r.ticker = "KT5"))
    have heq : kt5Input.filter (fun r => !decide (r.ticker = "KT5"))
        = [rKT5LDN, rKT5SGP, rKT5NYC] := by decide
    rw [heq] at hperm
    exact hperm
  have hany : ∀ loc ∈ locSuffixes,
      ((splitBaseVariant "KT5" l).2).any (fun v => pyEndsWith v.ticker loc) = true := by
    intro loc hloc
    have hl3 : loc = "NYC" ∨ loc = "LDN" ∨ loc = "SGP" := by
      simpa [locSuffixes] using hloc
    rcases hl3 with h' | h' | h' <;> subst h'
    · exact List.any_eq_true.mpr
        ⟨rKT5NYC, hlvperm.mem_iff.mpr (by decide), by decide⟩
    · exact List.any_eq_true.mpr
        ⟨rKT5LDN, hlvperm.mem_iff.mpr (by decide), by decide⟩
    · exact List.any_eq_true.mpr
        ⟨rKT5SGP, hlvperm.mem_iff.mpr (by decide), by decide⟩
  have hlocs : locSuffixes.filter
      (fun location =>
        ((splitBaseVariant "KT5" l).2).any (fun variant => pyEndsWith variant.ticker location))
      = locSuffixes := List.filter_eq_self.mpr hany
  show [mergeGroup "KT5" l] = [kt5Merged]
  simp only [mergeGroup, hsplit1]
  rw [hlocs]
  rfl

/-- Witness for the amended C1: the KT5 group as the grouping step
produces it, and a concrete non-canonical input order of the same
records. -/
theorem claim_C1_amended_witness :
    ("KT5", kt5Input) ∈ groupByBase kt5Input ∧
    ([rKT5, rKT5NYC, rKT5LDN, rKT5SGP] : List Record).Perm kt5Input ∧
    merge_location_variants [rKT5, rKT5NYC, rKT5LDN, rKT5SGP] = [kt5Merged] :=
  ⟨by decide, by decide,
    (claim_C1_amended kt5Input "KT5" kt5Input (by decide)).2
      [rKT5, rKT5NYC, rKT5LDN, rKT5SGP] (by decide)⟩

/-! ### C8: prior-CSV cleanup and factsheet override -/

/-- A prior-CSV row for ticker `EGLX` whose factsheet carries a trailing
comma artifact. -/
def priorRowEGLX : Record := { dummyRecord with ticker := "EGLX", factsheet := "X," }

/-- The static catalogue's `EGLX` entry. -/
def eglxStatic : Record :=
  ⟨"Kaiko", "Blue-Chip", "Kaiko Eagle Index", "EGLX", "NYC Fixing",
    "February 11, 2025", "February 11, 2025", factsheet_blue_chip⟩

/-- C8: each prior-CSV row is processed by trimming whitespace, stripping
a single trailing comma, skipping the row when the result is empty, and
collapsing the duplicated anchor-open pattern; the value `"X,"` stored for
`EGLX` is cleaned to `"X"` and overrides the static catalogue's factsheet
for that exact ticker before merging. -/
theorem claim_C8 :
    (∀ (rows : List Record) (row : Record),
      get_existing_fact_sheets (rows ++ [row]) =
        (let value := pyStrip row.factsheet
         let value := if pyEndsWith value "," then pyDropRight value 1 else value
         if value = "" then get_existing_fact_sheets rows
         else insertAssoc (get_existing_fact_sheets rows) row.ticker (fixDoubleHref value))) ∧
    lookupFacts (get_existing_fact_sheets [priorRowEGLX]) "EGLX" = some "X" ∧
    (fixed_items_with_fact_sheets
        (get_existing_fact_sheets [priorRowEGLX])).find? (fun r => decide (r.ticker = "EGLX"))
      = some { eglxStatic with factsheet := "X" } ∧
    get_fixed_entries.find? (fun r => decide (r.ticker = "EGLX")) = some eglxStatic ∧
    eglxStatic.factsheet ≠ "X" ∧
    fixDoubleHref "<a href=\"<a href=\"u\">x</a>" = "<a href=\"u\">x</a>" := by
  refine ⟨?_, by decide, by decide, by decide, by decide, by decide⟩
  intro rows row
  show (rows ++ [row]).foldl readStep [] = _
  rw [List.foldl_append]
  rfl

/-! ### C3: round trip through the Prior-State Reader -/

/-- A prior CSV holding a factsheet value with three trailing commas for
`EGLX`; the pipeline's double comma-strip still writes `"X,"`. -/
def priorTripleComma : List Record :=
  [{ dummyRecord with ticker := "EGLX", factsheet := "X,,," }]

/-- Counterexample to C3 as stated: running the pipeline on
`priorTripleComma` writes the full CSV with factsheet `"X,"` for `EGLX`,
but re-reading that file through the Prior-State Reader strips the comma
and recovers `"X"`, so the recovered mapping differs from the written
ticker→factsheet mapping restricted to non-empty values. -/
theorem claim_C3_counterexample :
    ((pull_and_save_data priorTripleComma).find?
        (fun r => decide (r.ticker = "EGLX"))).map (fun r => r.factsheet) = some "X," ∧
    lookupFacts (get_existing_fact_sheets (pull_and_save_data priorTripleComma)) "EGLX"
      = some "X" ∧
    lookupFacts (specFactsheetMapping (pull_and_save_data priorTripleComma)) "EGLX"
      = some "X," ∧
    get_existing_fact_sheets (pull_and_save_data priorTripleComma)
      ≠ specFactsheetMapping (pull_and_save_data priorTripleComma) := by
  refine ⟨by decide, by decide, by decide, by decide⟩

theorem lookupFacts_insertAssoc (m : List (String × String)) (k v t : String) :
    lookupFacts (insertAssoc m k v) t = if t = k then some v else lookupFacts m t := by
  induction m with
  | nil =>
    by_cases ht : t = k
    · subst ht; simp [insertAssoc, lookupFacts, List.find?]
    · have hkt : ¬(k = t) := fun h => ht h.symm
      simp [insertAssoc, lookupFacts, List.find?, hkt, ht]
  | cons p rest ih =>
    obtain ⟨k', v'⟩ := p
    by_cases hk : k' = k
    · subst hk
      by_cases ht : t = k'
      · subst ht; simp [insertAssoc, lookupFacts, List.find?]
      · have h1 : ¬(k' = t) := fun h => ht h.symm
        simp [insertAssoc, lookupFacts, List.find?, h1, ht]
    · by_cases ht' : k' = t
      · subst ht'
        simp [insertAssoc, lookupFacts, List.find?, hk]
      · have hneg : ¬((fun p : String × String => decide (p.1 = t)) (k', v')) = true := by
          simp [ht']
        have hcons : ∀ m' : List (String × String),
            lookupFacts ((k', v') :: m') t = lookupFacts m' t := by
          intro m'
          unfold lookupFacts
          rw [@List.find?_cons_of_neg (String × String)
            (fun p => decide (p.1 = t)) (k', v') m' hneg]
        rw [show insertAssoc ((k', v') :: rest) k v = (k', v') :: insertAssoc rest k v from by
            simp [insertAssoc, hk],
          hcons, hcons]
        exact ih

theorem lookupFacts_append (m m' : List (String × String)) (t : String) :
    lookupFacts (m ++ m') t = (lookupFacts m t).or (lookupFacts m' t) := by
  unfold lookupFacts
  rw [List.find?_append]
  cases h : m.find? (fun p => decide (p.1 = t)) <;> simp [h]

/-- The reader's row step either skips the row or stores a value under the
row's ticker. -/
theorem readStep_eq (m : List (String × String)) (row : Record) :
    readStep m row = m ∨ ∃ v, readStep m row = insertAssoc m row.ticker v := by
  by_cases hv : (if pyEndsWith (pyStrip row.factsheet) ","
      then pyDropRight (pyStrip row.factsheet) 1 else pyStrip row.factsheet) = ""
  · left; simp [readStep, hv]
  · right
    refine ⟨fixDoubleHref (if pyEndsWith (pyStrip row.factsheet) ","
        then pyDropRight (pyStrip row.factsheet) 1 else pyStrip row.factsheet), ?_⟩
    simp [readStep, hv]

/-- Splitting off the last prior row from the reader's fold. -/
theorem get_existing_fact_sheets_append (rows : List Record) (row : Record) :
    get_existing_fact_sheets (rows ++ [row])
      = readStep (get_existing_fact_sheets rows) row := by
  show (rows ++ [row]).foldl readStep [] = _
  rw [List.foldl_append]
  rfl

/-- The reader recovers nothing for a ticker absent from the rows. -/
theorem lookupFacts_read_of_not_mem (rows : List Record) (t : String)
    (h : ∀ r ∈ rows, r.ticker ≠ t) :
    lookupFacts (get_existing_fact_sheets rows) t = none := by
  induction rows using List.reverseRecOn with
  | nil => rfl
  | append_singleton rs row ih =>
    rw [get_existing_fact_sheets_append]
    have ihr := ih (fun r hr => h r (by simp [hr]))
    rcases readStep_eq (get_existing_fact_sheets rs) row with hcase | ⟨v, hcase⟩
    · rw [hcase]; exact ihr
    · rw [hcase, lookupFacts_insertAssoc, if_neg (fun he => h row (by simp) he.symm)]
      exact ihr

/-- The spec-side mapping likewise holds nothing for an absent ticker. -/
theorem lookupFacts_spec_of_not_mem (rows : List Record) (t : String)
    (h : ∀ r ∈ rows, r.ticker ≠ t) :
    lookupFacts (specFactsheetMapping rows) t = none := by
  unfold lookupFacts
  have hnone : (specFactsheetMapping rows).find? (fun p => decide (p.1 = t)) = none := by
    rw [List.find?_eq_none]
    intro x hx
    obtain ⟨r, hr, hfr⟩ := List.mem_filterMap.mp hx
    by_cases hfs : r.factsheet = ""
    · simp [hfs] at hfr
    · simp only [hfs, ne_eq, not_false_eq_true, if_true] at hfr
      have hx' := Option.some.inj hfr
      rw [← hx']
      simp [h r hr]
  rw [hnone]
  rfl

/-- C3 (amended): re-reading the written full CSV through the Prior-State
Reader recovers the ticker→factsheet mapping restricted to non-empty
values, provided the written rows have pairwise-distinct tickers and every
non-empty factsheet value is already clean — no surrounding whitespace, no
trailing comma, and no duplicated anchor-open pattern.  (The written rows
always have distinct tickers; cleanliness can fail, as the counterexample
shows, when the prior file held a value with repeated trailing commas.) -/
theorem claim_C3_amended (rows : List Record)
    (hnd : (rows.map (fun r => r.ticker)).Nodup)
    (hclean : ∀ r ∈ rows, r.factsheet ≠ "" →
      pyStrip r.factsheet = r.factsheet ∧
      pyEndsWith r.factsheet "," = false ∧
      ¬(doubleHref.data <:+: r.factsheet.data)) :
    ∀ t, lookupFacts (get_existing_fact_sheets rows) t
      = lookupFacts (specFactsheetMapping rows) t := by
  induction rows using List.reverseRecOn with
  | nil => intro t; rfl
  | append_singleton rs row ih =>
    intro t
    have hmapnd : (rs.map (fun r => r.ticker)).Nodup := by
      rw [List.map_append] at hnd
      exact hnd.of_append_left
    have hdisj : ∀ r ∈ rs, r.ticker ≠ row.ticker := by
      rw [List.map_append] at hnd
      intro r hr heq
      exact (List.disjoint_of_nodup_append hnd) (List.mem_map_of_mem _ hr) (by simp [heq])
    rw [get_existing_fact_sheets_append]
    by_cases hfs : row.factsheet = ""
    · have hstep : readStep (get_existing_fact_sheets rs) row = get_existing_fact_sheets rs := by
        have h1 : pyStrip ("" : String) = "" := rfl
        have h2 : pyEndsWith ("" : String) "," = false := by decide
        simp [readStep, hfs, h1, h2]
      have hsp : specFactsheetMapping (rs ++ [row]) = specFactsheetMapping rs := by
        simp [specFactsheetMapping, List.filterMap_append, hfs]
      rw [hstep, hsp]
      exact ih hmapnd (fun r hr hne => hclean r (by simp [hr]) hne) t
    · obtain ⟨h1, h2, h3⟩ := hclean row (by simp) hfs
      have hstep : readStep (get_existing_fact_sheets rs) row
          = insertAssoc (get_existing_fact_sheets rs) row.ticker row.factsheet := by
        simp [readStep, h1, h2, hfs, fixDoubleHref, h3]
      have hsp : specFactsheetMapping (rs ++ [row])
          = specFactsheetMapping rs ++ [(row.ticker, row.factsheet)] := by
        simp [specFactsheetMapping, List.filterMap_append, hfs]
      rw [hstep, hsp, lookupFacts_insertAssoc, lookupFacts_append]
      by_cases ht : t = row.ticker
      · subst ht
        rw [if_pos rfl, lookupFacts_spec_of_not_mem rs row.ticker hdisj]
        simp [lookupFacts, List.find?]
      · rw [if_neg ht]
        have hne' : ¬(row.ticker = t) := fun h => ht h.symm
        have hsingle : lookupFacts [(row.ticker, row.factsheet)] t = none := by
          simp [lookupFacts, List.find?, hne']
        rw [hsingle, Option.or_none]
        exact ih hmapnd (fun r hr hne => hclean r (by simp [hr]) hne) t

/-- Witness for the amended C3 on a one-row list with a clean non-empty
factsheet. -/
theorem claim_C3_amended_witness :
    ((([rBBB] : List Record).map (fun r => r.ticker)).Nodup) ∧
    (∀ r ∈ ([rBBB] : List Record), r.factsheet ≠ "" →
      pyStrip r.factsheet = r.factsheet ∧
      pyEndsWith r.factsheet "," = false ∧
      ¬(doubleHref.data <:+: r.factsheet.data)) ∧
    lookupFacts (get_existing_fact_sheets [rBBB]) "BBB"
      = lookupFacts (specFactsheetMapping [rBBB]) "BBB" :=
  ⟨by decide, by decide, claim_C3_amended [rBBB] (by decide) (by decide) "BBB"⟩

/-! ### C9: the full output is sorted by ticker -/

theorem strLeAux_cons (x y : Char) (xs ys : List Char) :
    strLeAux (x :: xs) (y :: ys)
      = if x.toNat < y.toNat then true
        else if y.toNat < x.toNat then false
        else strLeAux xs ys := rfl

/-- Totality of the code-point lexicographic comparison. -/
theorem strLeAux_total : ∀ a b : List Char, strLeAux a b = true ∨ strLeAux b a = true := by
  intro a
  induction a with
  | nil => intro b; left; rfl
  | cons x xs ih =>
    intro b
    cases b with
    | nil => right; rfl
    | cons y ys =>
      rw [strLeAux_cons, strLeAux_cons]
      by_cases h1 : x.toNat < y.toNat
      · left; rw [if_pos h1]
      · by_cases h2 : y.toNat < x.toNat
        · right; rw [if_pos h2]
        · rw [if_neg h1, if_neg h2, if_neg h2, if_neg h1]
          exact ih ys

/-- Transitivity of the code-point lexicographic comparison. -/
theorem strLeAux_trans : ∀ a b c : List Char,
    strLeAux a b = true → strLeAux b c = true → strLeAux a c = true := by
  intro a
  induction a with
  | nil => intro b c _ _; rfl
  | cons x xs ih =>
    intro b c hab hbc
    cases b with
    | nil => exact absurd hab (by simp [strLeAux])
    | cons y ys =>
      cases c with
      | nil => exact absurd hbc (by simp [strLeAux])
      | cons z zs =>
        rw [strLeAux_cons] at hab hbc ⊢
        by_cases hxy : x.toNat < y.toNat
        · by_cases hyz : y.toNat < z.toNat
          · rw [if_pos (Nat.lt_trans hxy hyz)]
          · by_cases hzy : z.toNat < y.toNat
            · rw [if_neg hyz, if_pos hzy] at hbc
              exact absurd hbc (by simp)
            · have hxz : x.toNat < z.toNat := by omega
              rw [if_pos hxz]
        · by_cases hyx : y.toNat < x.toNat
          · rw [if_neg hxy, if_pos hyx] at hab
            exact absurd hab (by simp)
          · rw [if_neg hxy, if_neg hyx] at hab
            by_cases hyz : y.toNat < z.toNat
            · have hxz : x.toNat < z.toNat := by omega
              rw [if_pos hxz]
            · by_cases hzy : z.toNat < y.toNat
              · rw [if_neg hyz, if_pos hzy] at hbc
                exact absurd hbc (by simp)
              · rw [if_neg hyz, if_neg hzy] at hbc
                have hnxz : ¬x.toNat < z.toNat := by omega
                have hnzx : ¬z.toNat < x.toNat := by omega
                rw [if_neg hnxz, if_neg hnzx]
                exact ih ys zs hab hbc

instance : IsTotal Record tickerLe :=
  ⟨fun a b => strLeAux_total a.ticker.data b.ticker.data⟩

instance : IsTrans Record tickerLe :=
  ⟨fun a b c => strLeAux_trans a.ticker.data b.ticker.data c.ticker.data⟩

/-- C9: the written full list is sorted by ticker in ascending
code-point/lexicographic order — for any two rows in output order the
earlier row's ticker compares `≤` the later one's — and, concretely, the
static run puts `ALTS, BOLD1, CASL, DDV` first, so `BOLD1` appears before
`CASL`, which appears before `DDV`. -/
theorem claim_C9 :
    (∀ priorRows : List Record, List.Pairwise tickerLe (pull_and_save_data priorRows)) ∧
    ((pull_and_save_data []).map (fun r => r.ticker)).take 4
      = ["ALTS", "BOLD1", "CASL", "DDV"] := by
  constructor
  · intro priorRows
    exact List.sorted_insertionSort tickerLe
      (merge_location_variants
        (fixed_items_with_fact_sheets (get_existing_fact_sheets priorRows)))
  · decide

end RatesUpdate
